import Mathlib

/-!
Verification of the generation pipeline of the sumarizz repository:
the fixed-window rate limiters (`src/app/api/generate-content/route.ts`,
`src/app/api/generate-image/route.ts`), the `/generate-content` request
dispatch and storybook response sanitizer, the session-store page/image
state machine (`sessionStore.ts`, `explore.tsx`), and the bookshelf
library store (`bookshelfStore.ts`).  TypeScript values are embedded
shallowly: JS numbers used as counters/timestamps become `Nat`,
`string | null` becomes `Option String`, maps become per-key `Option`
state, and `JSON.parse` is modelled by an executable fueled parser over
the JSON value grammar (numeric literals are kept as their lexemes, so
no floating point arithmetic is modelled).
-/

namespace Sumarizz

/-- The backtick character, written via its code point. -/
def bq : Char := Char.ofNat 96

/-- The opening curly brace character. -/
def lb : Char := Char.ofNat 123

/-- The closing curly brace character. -/
def rb : Char := Char.ofNat 125

/-- The character class of the JS regex `\s` and of `String.prototype.trim`,
restricted to the ASCII whitespace characters (the Unicode members of the
class play no role in any statement below). -/
def jsSpace (c : Char) : Bool :=
  c = ' ' || c = '\t' || c = '\n' || c = '\r' || c = '\x0b' || c = '\x0c'

/-- Trim both ends of a character list, as JS `String.prototype.trim`. -/
def trimChars (cs : List Char) : List Char :=
  ((cs.dropWhile jsSpace).reverse.dropWhile jsSpace).reverse

/-- JS `content.trim()`. -/
def jsTrim (s : String) : String :=
  String.mk (trimChars s.data)

/-- JSON values as produced by `JSON.parse`.  A numeric literal is kept as
its source lexeme (the route never computes with parsed numbers). -/
inductive Json where
  | null : Json
  | bool (b : Bool) : Json
  | num (lexeme : String) : Json
  | str (s : String) : Json
  | arr (items : List Json) : Json
  | obj (members : List (String × Json)) : Json
deriving Repr

/-- Whitespace accepted between JSON tokens by `JSON.parse`. -/
def jsonWs (c : Char) : Bool :=
  c = ' ' || c = '\t' || c = '\n' || c = '\r'

/-- Decimal digit test. -/
def isDigit (c : Char) : Bool :=
  '0' ≤ c && c ≤ '9'

/-- Hexadecimal digit test. -/
def isHexDigit (c : Char) : Bool :=
  isDigit c || ('a' ≤ c && c ≤ 'f') || ('A' ≤ c && c ≤ 'F')

/-- Value of a hexadecimal digit. -/
def hexVal (c : Char) : Nat :=
  if isDigit c then c.toNat - 48
  else if 'a' ≤ c && c ≤ 'f' then c.toNat - 87
  else c.toNat - 55

/-- Parse the body of a JSON string literal (after the opening quote),
returning the decoded characters and the rest of the input. -/
def parseStrRest : List Char → List Char → Option (String × List Char)
  | acc, c :: cs =>
    if c = '"' then some (String.mk acc.reverse, cs)
    else if c = '\\' then
      match cs with
      | '"' :: cs' => parseStrRest ('"' :: acc) cs'
      | '\\' :: cs' => parseStrRest ('\\' :: acc) cs'
      | '/' :: cs' => parseStrRest ('/' :: acc) cs'
      | 'b' :: cs' => parseStrRest ('\x08' :: acc) cs'
      | 'f' :: cs' => parseStrRest ('\x0c' :: acc) cs'
      | 'n' :: cs' => parseStrRest ('\n' :: acc) cs'
      | 'r' :: cs' => parseStrRest ('\r' :: acc) cs'
      | 't' :: cs' => parseStrRest ('\t' :: acc) cs'
      | 'u' :: h1 :: h2 :: h3 :: h4 :: cs' =>
        if isHexDigit h1 && isHexDigit h2 && isHexDigit h3 && isHexDigit h4 then
          parseStrRest
            (Char.ofNat (((hexVal h1 * 16 + hexVal h2) * 16 + hexVal h3) * 16 + hexVal h4) :: acc)
            cs'
        else none
      | _ => none
    else if c.toNat < 32 then none
    else parseStrRest (c :: acc) cs
  | _, [] => none

/-- Lex the digits of a JSON number after the optional sign: integer part
(no leading zero), optional fraction, optional exponent.  Returns the
lexeme characters consumed and the rest. -/
def lexDigits : List Char → Option (List Char × List Char)
  | cs =>
    let intPart := cs.takeWhile isDigit
    let rest := cs.dropWhile isDigit
    if intPart = [] then none
    else if 1 < intPart.length && intPart.head? = some '0' then none
    else
      match rest with
      | '.' :: cs' =>
        let frac := cs'.takeWhile isDigit
        let rest' := cs'.dropWhile isDigit
        if frac = [] then none
        else
          match rest' with
          | e :: cs'' =>
            if e = 'e' || e = 'E' then
              match cs'' with
              | s :: cs''' =>
                if s = '+' || s = '-' then
                  let ex := cs'''.takeWhile isDigit
                  if ex = [] then none
                  else some (intPart ++ '.' :: frac ++ e :: s :: ex, cs'''.dropWhile isDigit)
                else
                  let ex := cs''.takeWhile isDigit
                  if ex = [] then none
                  else some (intPart ++ '.' :: frac ++ e :: ex, cs''.dropWhile isDigit)
              | [] => none
            else some (intPart ++ '.' :: frac, rest')
          | [] => some (intPart ++ '.' :: frac, rest')
      | e :: cs' =>
        if e = 'e' || e = 'E' then
          match cs' with
          | s :: cs'' =>
            if s = '+' || s = '-' then
              let ex := cs''.takeWhile isDigit
              if ex = [] then none
              else some (intPart ++ e :: s :: ex, cs''.dropWhile isDigit)
            else
              let ex := cs'.takeWhile isDigit
              if ex = [] then none
              else some (intPart ++ e :: ex, cs'.dropWhile isDigit)
          | [] => none
        else some (intPart, rest)
      | [] => some (intPart, rest)

mutual

/-- Fueled recursive-descent parser for one JSON value (leading whitespace
allowed), modelling `JSON.parse`'s grammar. -/
def parseValue : Nat → List Char → Option (Json × List Char)
  | 0, _ => none
  | fuel + 1, cs =>
    match cs.dropWhile jsonWs with
    | 'n' :: 'u' :: 'l' :: 'l' :: rest => some (Json.null, rest)
    | 't' :: 'r' :: 'u' :: 'e' :: rest => some (Json.bool true, rest)
    | 'f' :: 'a' :: 'l' :: 's' :: 'e' :: rest => some (Json.bool false, rest)
    | '"' :: rest =>
      match parseStrRest [] rest with
      | some (s, rest') => some (Json.str s, rest')
      | none => none
    | '-' :: rest =>
      match lexDigits rest with
      | some (lex, rest') => some (Json.num (String.mk ('-' :: lex)), rest')
      | none => none
    | '[' :: rest =>
      (match rest.dropWhile jsonWs with
      | ']' :: rest' => some (Json.arr [], rest')
      | _ => parseArrayItems fuel rest [])
    | c :: rest =>
      if c = lb then
        match (c :: rest).tail.dropWhile jsonWs with
        | c' :: rest' =>
          if c' = rb then some (Json.obj [], rest')
          else parseObjMembers fuel (c :: rest).tail []
        | [] => none
      else if isDigit c then
        match lexDigits (c :: rest) with
        | some (lex, rest') => some (Json.num (String.mk lex), rest')
        | none => none
      else none
    | [] => none

/-- Parse the comma-separated items of a JSON array (after `[`). -/
def parseArrayItems : Nat → List Char → List Json → Option (Json × List Char)
  | 0, _, _ => none
  | fuel + 1, cs, acc =>
    match parseValue fuel cs with
    | some (v, rest) =>
      (match rest.dropWhile jsonWs with
      | ',' :: rest' => parseArrayItems fuel rest' (v :: acc)
      | ']' :: rest' => some (Json.arr (v :: acc).reverse, rest')
      | _ => none)
    | none => none

/-- Parse the comma-separated members of a JSON object (after `{`). -/
def parseObjMembers : Nat → List Char → List (String × Json) → Option (Json × List Char)
  | 0, _, _ => none
  | fuel + 1, cs, acc =>
    match cs.dropWhile jsonWs with
    | '"' :: rest =>
      (match parseStrRest [] rest with
      | some (key, rest') =>
        (match rest'.dropWhile jsonWs with
        | ':' :: rest'' =>
          (match parseValue fuel rest'' with
          | some (v, rest3) =>
            (match rest3.dropWhile jsonWs with
            | ',' :: rest4 => parseObjMembers fuel rest4 ((key, v) :: acc)
            | c :: rest4 =>
              if c = rb then some (Json.obj ((key, v) :: acc).reverse, rest4) else none
            | [] => none)
          | none => none)
        | _ => none)
      | none => none)
    | _ => none

end

/-- `JSON.parse`: parse a whole string as a single JSON value, allowing
surrounding whitespace and rejecting trailing garbage. -/
def jsonParse (s : String) : Option Json :=
  match parseValue (2 * s.data.length + 2) s.data with
  | some (v, rest) => if rest.dropWhile jsonWs = [] then some v else none
  | none => none

/-!
## The markdown fence matcher

`route.ts` line 164 and `explore.tsx` line 277 apply the JS regex
match `/` + "```" + `(?:json)?\s*(\x7b[\s\S]*\x7d)\s*` + "```" + `/`
to the (trimmed) provider text and, when it matches, replace the text by
the first capture group.  The JS search is leftmost-first; at a match
position the optional `json` tag is tried greedily with backtracking,
`\s*` followed by a non-space literal deterministically skips spaces,
and the greedy `[\s\S]*` makes the capture extend to the rightmost
closing brace that is followed by optional whitespace and a closing
fence.  The functions below implement exactly that search.
-/

/-- Does the input, after optional whitespace, begin with a closing
fence of three backticks?  (The tail of the regex: `\s*` + three
backticks, checked after the candidate closing brace.) -/
def closeOk (cs : List Char) : Bool :=
  match cs.dropWhile jsSpace with
  | a :: b :: c :: _ => a = bq && b = bq && c = bq
  | _ => false

/-- Index of the rightmost character that is a closing brace whose
remaining suffix passes `closeOk` — the end of the greedy capture. -/
def rightmostClose : List Char → Option Nat
  | [] => none
  | c :: rest =>
    match rightmostClose rest with
    | some j => some (j + 1)
    | none => if c = rb && closeOk rest then some 0 else none

/-- Does the input begin with the letters `json` (the optional fence tag)? -/
def tagJson : List Char → Bool
  | 'j' :: 's' :: 'o' :: 'n' :: _ => true
  | _ => false

/-- Match the part of the fence pattern after the opening backticks and
optional tag: `\s*` then an opening brace, then the greedy capture up to
a closing brace followed by `\s*` and a closing fence.  Returns the
capture group. -/
def matchAfterTag (cs : List Char) : Option (List Char) :=
  match cs.dropWhile jsSpace with
  | c :: body =>
    if c = lb then
      match rightmostClose body with
      | some j => some (lb :: body.take (j + 1))
      | none => none
    else none
  | [] => none

/-- Try to match the whole fence pattern at the head of the input:
three backticks, then the `json` tag if it both is present and lets the
rest of the pattern succeed (JS backtracking on `(?:json)?`), else no tag. -/
def matchAt (cs : List Char) : Option (List Char) :=
  match cs with
  | a :: b :: c :: rest =>
    if a = bq && b = bq && c = bq then
      match (if tagJson rest then matchAfterTag (rest.drop 4) else none) with
      | some cap => some cap
      | none => matchAfterTag rest
    else none
  | _ => none

/-- Leftmost-first search for the fence pattern (JS `String.match` with a
non-global regex). -/
def findFence : List Char → Option (List Char)
  | [] => none
  | c :: rest =>
    match matchAt (c :: rest) with
    | some cap => some cap
    | none => findFence rest

/-- The storybook response cleaning of `route.ts` lines 160–167 (and the
identical logic of `explore.tsx` lines 273–280): trim, then replace the
text by the fenced capture when the fence regex matches. -/
def cleanStorybook (content : String) : String :=
  let cleaned := jsTrim content
  match findFence cleaned.data with
  | some cap => String.mk cap
  | none => cleaned

/-- Wrap a text in a markdown ```json fenced block, the provider output
shape the sanitizer is designed to strip. -/
def wrapFence (s : String) : String :=
  "```json\n" ++ s ++ "\n```"

/-!
## The `/generate-content` route: dispatch and storybook validation
-/

/-- Outcome of the request-validation and type-dispatch section of the
`POST` handler in `route.ts` lines 84–109: either a 400 for missing
fields, a 400 for an invalid content type, or the prompts to send to the
provider.  Absent request fields are embedded as the empty string (both
are falsy in the JS guard `!topic || !proficiency || !source`). -/
inductive DispatchResult where
  | missingFields : DispatchResult
  | invalidContentType : DispatchResult
  | proceed (systemPrompt userQuery : String) : DispatchResult
deriving Repr, DecidableEq

/-- The system prompt built for `type === 'summary'` (`route.ts` line 99). -/
def summarySystemPrompt : String :=
  "You are an expert researcher. Your task is to provide a concise, single-paragraph summary of a topic based on a specified source and for a specific audience."

/-- The user query built for `type === 'summary'` (`route.ts` line 100). -/
def summaryUserQuery (topic proficiency source : String) : String :=
  "Identify the core concepts about \"" ++ topic ++
  "\". Generate a text summary explaining these concepts and theories for a " ++
  proficiency ++ " level audience, assuming the information comes from a " ++
  source ++ "."

/-- The system prompt built for `type === 'storybook'` (`route.ts` line 102). -/
def storybookSystemPrompt : String :=
  "You are a creative educational content creator. Create engaging, age-appropriate storybook pages that explain concepts in a narrative format. IMPORTANT: Respond with ONLY valid JSON, no additional text or formatting."

/-- The user query built for `type === 'storybook'` (`route.ts` line 103). -/
def storybookUserQuery (topic proficiency : String) (pageCount : Nat) : String :=
  "Create a storybook about \"" ++ topic ++ "\" for a " ++ proficiency ++
  " level audience. Generate exactly " ++ toString pageCount ++
  " pages, each with a title, content (2-3 sentences), and a brief image description. Return ONLY this JSON structure with no additional text: \x7b\"pages\": [\x7b\"id\": 1, \"title\": \"Page Title\", \"content\": \"Page content\", \"imageDescription\": \"Description for image generation\"\x7d]\x7d"

/-- Field validation and content-type dispatch of the `POST` handler
(`route.ts` lines 84–109): missing required fields give a 400; then
`summary` and `storybook` build their prompts; every other `type` —
including `meme-text` as sent by `generateMeme` in `explore.tsx` —
falls to the 400 `Invalid content type. Must be "summary" or
"storybook"` branch. -/
def dispatchContent (topic proficiency source ty : String) (pageCount : Nat) :
    DispatchResult :=
  if topic = "" || proficiency = "" || source = "" then
    DispatchResult.missingFields
  else if ty = "summary" then
    DispatchResult.proceed summarySystemPrompt (summaryUserQuery topic proficiency source)
  else if ty = "storybook" then
    DispatchResult.proceed storybookSystemPrompt (storybookUserQuery topic proficiency pageCount)
  else
    DispatchResult.invalidContentType

/-- Is the parsed value an object whose `pages` member is an array?
This is the JS test `!(!parsed.pages || !Array.isArray(parsed.pages))`
of `route.ts` line 173: member access on a non-object yields no array
(and on `null` throws, landing in the same catch), a missing member is
falsy, and a present member passes only when it is an array (arrays are
always truthy).  Duplicate keys follow `JSON.parse`, which keeps the
last occurrence. -/
def pagesIsArray : Json → Bool
  | Json.obj members =>
    match (members.reverse.find? fun m => m.fst = "pages") with
    | some (_, Json.arr _) => true
    | _ => false
  | _ => false

/-- Outcome of the storybook content validation (`route.ts` lines
156–189): a 500 `Generated content is not valid JSON` with details, or
a success carrying the cleaned content. -/
inductive StorybookOutcome where
  | malformed (details : String) : StorybookOutcome
  | success (content : String) : StorybookOutcome
deriving Repr, DecidableEq

/-- The storybook branch of the `POST` handler (`route.ts` lines
156–189): clean the generated content, `JSON.parse` it, and require a
`pages` array; any parse failure or shape failure is caught and mapped
to the 500 malformed-content response.  The details string carries the
thrown message (parser-internal messages are engine specific; the parse
failure is embedded as a fixed message). -/
def storybookValidate (generatedContent : String) : StorybookOutcome :=
  let cleanedContent := cleanStorybook generatedContent
  match jsonParse cleanedContent with
  | none => StorybookOutcome.malformed "JSON parse error"
  | some parsed =>
    if pagesIsArray parsed then StorybookOutcome.success cleanedContent
    else StorybookOutcome.malformed "Invalid structure - missing pages array"

/-!
## The fixed-window rate limiters

`route.ts` lines 4–27 (text, ceiling 10) and the image route lines 5–27
(ceiling 35) hold a `Map` from client identifier to
`{ count, resetTime }`.  Requests touch only the entry of their own
identifier, so the state is embedded per identifier as an
`Option RateRecord`; `Date.now()` becomes a `Nat` argument.
-/

/-- An entry of the rate-limit map: `{ count: number; resetTime: number }`. -/
structure RateRecord where
  count : Nat
  resetTime : Nat
deriving Repr, DecidableEq

/-- The value returned by `getRateLimitStatus` /
`getImageRateLimitStatus`. -/
structure RateLimitStatus where
  success : Bool
  count : Nat
  remaining : Nat
  resetTime : Nat
deriving Repr, DecidableEq

/-- `RATE_LIMIT_MAX` of `route.ts` line 7. -/
def RATE_LIMIT_MAX : Nat := 10

/-- `RATE_LIMIT_WINDOW` of `route.ts` line 8 (60 seconds in ms). -/
def RATE_LIMIT_WINDOW : Nat := 60 * 1000

/-- `IMAGE_RATE_LIMIT_MAX` of the image route line 8. -/
def IMAGE_RATE_LIMIT_MAX : Nat := 35

/-- `IMAGE_RATE_LIMIT_WINDOW` of the image route line 9. -/
def IMAGE_RATE_LIMIT_WINDOW : Nat := 60 * 1000

/-- `getRateLimitStatus` (`route.ts` lines 10–27), identical in shape to
`getImageRateLimitStatus` of the image route; `max` and `window` are the
configured ceiling and window of the instance.  Returns the status
together with the record stored back in the map for this identifier. -/
def getRateLimitStatus (max window now : Nat) (record : Option RateRecord) :
    RateLimitStatus × RateRecord :=
  match record with
  | none =>
    (⟨true, 1, max - 1, now + window⟩, ⟨1, now + window⟩)
  | some r =>
    if now > r.resetTime then
      (⟨true, 1, max - 1, now + window⟩, ⟨1, now + window⟩)
    else if r.count ≥ max then
      (⟨false, r.count, 0, r.resetTime⟩, r)
    else
      (⟨true, r.count + 1, max - (r.count + 1), r.resetTime⟩, ⟨r.count + 1, r.resetTime⟩)

/-- The stored record after a burst of `n` requests, all arriving at
time `now`, starting from a given map entry. -/
def applyRequests (max window now : Nat) : Nat → Option RateRecord → Option RateRecord
  | 0, st => st
  | n + 1, st => some (getRateLimitStatus max window now (applyRequests max window now n st)).2

/-- The stored record after one request at each time of a list, in order. -/
def applyRequestsAt (max window : Nat) (times : List Nat) (st : Option RateRecord) :
    Option RateRecord :=
  times.foldl (fun s t => some (getRateLimitStatus max window t s).2) st

/-!
## Session store: storybook pages and meme state
-/

/-- A `StoryPage` (`sessionStore.ts` / `bookshelfStore.ts` lines 5–11):
`imageUrl?: string | null` becomes `Option String` (absent and `null`
both embed to `none`), `imageLoading?: boolean` with an absent field
being falsy becomes `Bool`. -/
structure StoryPage where
  id : Nat
  title : String
  content : String
  imageUrl : Option String
  imageLoading : Bool
deriving Repr, DecidableEq

/-- `currentMemeData` (`sessionStore.ts` line 19). -/
structure MemeState where
  text : String
  imageUrl : Option String
  imageLoading : Bool
deriving Repr, DecidableEq

/-- The data fields of `SessionState` (`sessionStore.ts` lines 13–19). -/
structure SessionState where
  currentStorybook : List StoryPage
  currentTopic : String
  currentSummary : String
  currentStep : Nat
  currentTextLength : String
  currentMemeData : MemeState
deriving Repr, DecidableEq

/-- `updatePageImage` on the page list (`sessionStore.ts` lines
102–110): the page whose id matches gets the url with
`imageLoading: false`; every other page is returned unchanged. -/
def updatePageImage (pageId : Nat) (imageUrl : String) (storybook : List StoryPage) :
    List StoryPage :=
  storybook.map fun page =>
    if page.id = pageId then
      { page with imageUrl := some imageUrl, imageLoading := false }
    else page

/-- `updatePageImage` as the session-store action: it maps only the
`currentStorybook` field of the state. -/
def updatePageImageS (pageId : Nat) (imageUrl : String) (st : SessionState) :
    SessionState :=
  { st with currentStorybook := updatePageImage pageId imageUrl st.currentStorybook }

/-- The failure placeholder url used by `generateImageForPage`
(`explore.tsx` line 350). -/
def failurePlaceholder : String :=
  "https://placehold.co/600x400/FF0000/FFFFFF?text=Image+Failed"

/-- List-infix test used to embed JS `String.includes`. -/
def containsSub (needle hay : List Char) : Bool :=
  match hay with
  | [] => needle = []
  | _ :: rest => needle.isPrefixOf hay || containsSub needle rest

/-- The pages selected for auto-regeneration (`explore.tsx` lines
120–123): not loading, and either no imageUrl or one containing
`placehold.co`. -/
def needsImage (p : StoryPage) : Bool :=
  !p.imageLoading &&
    (match p.imageUrl with
     | none => true
     | some url => containsSub "placehold.co".data url.data)

/-- The ways the repository writes `currentStorybook`, as a step
relation on the page list: `generateStorybook` installs the freshly
parsed pages with `imageUrl: null, imageLoading: true`
(`explore.tsx` lines 292–298); the auto-regeneration effect resets the
pages that need images to the same loading state (`explore.tsx` lines
130–135); each image request resolution — success, provider degrade to
a placeholder url, or failure — calls `updatePageImage`
(`explore.tsx` lines 342–351); `clearSession` empties the list
(`sessionStore.ts` lines 112–121). -/
inductive SessionStep : List StoryPage → List StoryPage → Prop
  | install (s : List StoryPage) (pages : List (Nat × String × String)) :
      SessionStep s (pages.map fun pg => ⟨pg.1, pg.2.1, pg.2.2, none, true⟩)
  | regen (s : List StoryPage) :
      SessionStep s
        (s.map fun p => if needsImage p then { p with imageLoading := true, imageUrl := none } else p)
  | resolve (s : List StoryPage) (pageId : Nat) (url : String) :
      SessionStep s (updatePageImage pageId url s)
  | clear (s : List StoryPage) :
      SessionStep s []

/-- Page lists reachable from the initial empty session storybook. -/
def ReachableStorybook (s : List StoryPage) : Prop :=
  Relation.ReflTransGen SessionStep [] s

/-- The page-state invariant: `imageLoading = true` XOR the page has a
non-null `imageUrl`. -/
def pageOk (p : StoryPage) : Prop :=
  (p.imageLoading = true ∧ p.imageUrl = none) ∨
  (p.imageLoading = false ∧ p.imageUrl ≠ none)

/-- Resolution of a whole fan-out: each element of `outcomes` is one
image request resolving for a page id with its resulting url (generated
url, degrade placeholder, or `failurePlaceholder`), applied in arrival
order. -/
def resolveAll (outcomes : List (Nat × String)) (s : List StoryPage) : List StoryPage :=
  outcomes.foldl (fun st o => updatePageImage o.1 o.2 st) s

/-- The url of the last resolution targeting a given page id, if any. -/
def lastLookup (outcomes : List (Nat × String)) (pid : Nat) : Option String :=
  match outcomes with
  | [] => none
  | o :: rest =>
    match lastLookup rest pid with
    | some u => some u
    | none => if pid = o.1 then some o.2 else none

/-!
## Bookshelf (library) store
-/

/-- A `BookshelfItem` (`bookshelfStore.ts` lines 13–18). -/
structure BookshelfItem where
  id : Nat
  topic : String
  summary : String
  storybook : List StoryPage
deriving Repr, DecidableEq

/-- The argument of `addBook`: a book without an id
(`Omit<BookshelfItem, 'id'>`). -/
structure BookDraft where
  topic : String
  summary : String
  storybook : List StoryPage
deriving Repr, DecidableEq

/-- The new entry built inside `addBook` (`bookshelfStore.ts` lines
77–85): the id is `Date.now()` and the storybook pages are copied
unchanged (the spread keeps every field; images are stripped only by
`partialize` at serialization time). -/
def mkBook (now : Nat) (book : BookDraft) : BookshelfItem :=
  ⟨now, book.topic, book.summary, book.storybook.map fun p => p⟩

/-- `addBook` (`bookshelfStore.ts` lines 76–94): append the new entry,
then keep `slice(-10)` — the last ten entries (JS `slice(-10)` of a
shorter list keeps the whole list, matching truncated subtraction). -/
def addBook (now : Nat) (book : BookDraft) (bookshelf : List BookshelfItem) :
    List BookshelfItem :=
  let updatedBookshelf := bookshelf ++ [mkBook now book]
  updatedBookshelf.drop (updatedBookshelf.length - 10)

/-- `updateBookImages` (`bookshelfStore.ts` lines 119–127): replace the
storybook of the entry whose id matches; every other entry unchanged. -/
def updateBookImages (id : Nat) (updatedStorybook : List StoryPage)
    (bookshelf : List BookshelfItem) : List BookshelfItem :=
  bookshelf.map fun book =>
    if book.id = id then { book with storybook := updatedStorybook } else book

/-- The per-page projection of `partialize` (`bookshelfStore.ts` lines
136–141): only `id`, `title`, `content` are written.  On restore the
absent optional fields read back as `imageUrl` none and `imageLoading`
false (absent is falsy), which is how the embedded `StoryPage` encodes
them, so the persisted page is exactly this stripped page. -/
def stripPage (p : StoryPage) : StoryPage :=
  ⟨p.id, p.title, p.content, none, false⟩

/-- The per-entry projection of `partialize` (`bookshelfStore.ts` lines
133–142): the spread keeps `id`, `topic`, `summary` and strips every
page.  `createJSONStorage` serializes this projection and restore
parses it back unchanged, so the round-tripped entry is exactly this
value. -/
def partializeBook (b : BookshelfItem) : BookshelfItem :=
  { b with storybook := b.storybook.map stripPage }

/-- `partialize` on the whole bookshelf (`bookshelfStore.ts` lines
132–143). -/
def partializeBookshelf (bookshelf : List BookshelfItem) : List BookshelfItem :=
  bookshelf.map partializeBook

/-- Does the character list contain three consecutive backticks — the
only way the fence regex can find a match start? -/
def hasTriple : List Char → Bool
  | a :: b :: c :: rest => (a = bq && b = bq && c = bq) || hasTriple (b :: c :: rest)
  | _ => false

/-- A JSON object text that itself contains a ```json fenced span
inside one of its string values. -/
def fencedObjectText : String := "\x7b\"a\": \"```json \x7b1\x7d ```\"\x7d"

/-- The per-page effect of a whole fan-out: fold the arriving
resolutions over one page. -/
def applyOutcomes : List (Nat × String) → StoryPage → StoryPage
  | [], p => p
  | o :: rest, p =>
    applyOutcomes rest
      (if p.id = o.1 then { p with imageUrl := some o.2, imageLoading := false } else p)


/-- A ten-entry library used to witness the cap claim. -/
def shelfTen : List BookshelfItem :=
  (List.range 10).map fun i => ⟨i, "topic", "summary", []⟩

/-- The five freshly installed pages of the witness scenario. -/
def fivePages : List StoryPage :=
  [⟨1, "p1", "c1", none, true⟩, ⟨2, "p2", "c2", none, true⟩,
   ⟨3, "p3", "c3", none, true⟩, ⟨4, "p4", "c4", none, true⟩,
   ⟨5, "p5", "c5", none, true⟩]

/-- The witness fan-out: page 2's request fails (failure placeholder),
the other four succeed with their generated urls. -/
def fiveOutcomes : List (Nat × String) :=
  [(1, "u1"), (2, failurePlaceholder), (3, "u3"), (4, "u4"), (5, "u5")]


/-!
## Claims
-/

/-- Claim C2 (code-bug witness): a fully populated request whose `type` is
`meme-text` — exactly what `generateMeme` in `explore.tsx` sends and
what the README's meme feature documents — is rejected by the
`/generate-content` dispatch as an invalid content type, while the same
request with `type = summary` proceeds; the endpoint never reaches a
success response for meme captions. -/
theorem meme_text_request_rejected :
    dispatchContent "Quantum Computing" "Beginner" "Academic Papers" "meme-text" 5 =
      DispatchResult.invalidContentType ∧
    dispatchContent "Quantum Computing" "Beginner" "Academic Papers" "summary" 5 =
      DispatchResult.proceed summarySystemPrompt
        (summaryUserQuery "Quantum Computing" "Beginner" "Academic Papers") ∧
    ∀ sys uq,
      dispatchContent "Quantum Computing" "Beginner" "Academic Papers" "meme-text" 5 ≠
        DispatchResult.proceed sys uq := by
  refine ⟨rfl, rfl, fun sys uq h => ?_⟩
  exact DispatchResult.noConfusion
    ((rfl :
      dispatchContent "Quantum Computing" "Beginner" "Academic Papers" "meme-text" 5 =
        DispatchResult.invalidContentType).symm.trans h)

/-- Claim C7: `addBook` on a 10-entry library appends the new entry and
evicts exactly the oldest, preserving the remaining entries in
insertion order; and the library never exceeds 10 entries after any
`addBook`. -/
theorem library_cap_evicts_oldest (now : Nat) (b : BookDraft)
    (bookshelf : List BookshelfItem) :
    (bookshelf.length = 10 →
      addBook now b bookshelf = bookshelf.drop 1 ++ [mkBook now b]) ∧
    (addBook now b bookshelf).length ≤ 10 := by
  constructor
  · intro h10
    have hlen : (bookshelf ++ [mkBook now b]).length = 11 := by
      simp [h10]
    show List.drop ((bookshelf ++ [mkBook now b]).length - 10)
        (bookshelf ++ [mkBook now b]) = _
    rw [hlen]
    show List.drop 1 (bookshelf ++ [mkBook now b]) = _
    rw [List.drop_append_of_le_length (by omega)]
  · show (List.drop ((bookshelf ++ [mkBook now b]).length - 10)
        (bookshelf ++ [mkBook now b])).length ≤ 10
    rw [List.length_drop]
    omega


/-- Witness for the library cap: adding an 11th entry to a concrete
10-entry library evicts the oldest. -/
theorem library_cap_evicts_oldest_witness :
    shelfTen.length = 10 ∧
    addBook 100 ⟨"t", "s", []⟩ shelfTen =
      shelfTen.drop 1 ++ [mkBook 100 ⟨"t", "s", []⟩] ∧
    (addBook 100 ⟨"t", "s", []⟩ shelfTen).length ≤ 10 :=
  ⟨by decide,
   (library_cap_evicts_oldest 100 ⟨"t", "s", []⟩ shelfTen).1 (by decide),
   (library_cap_evicts_oldest 100 ⟨"t", "s", []⟩ shelfTen).2⟩

/-- Claim C8: the `partialize` projection (what `createJSONStorage`
serializes and what restore parses back) keeps the entry's `id`,
`topic`, `summary` and each page's `id`, `title`, `content`, while every
page comes back with `imageUrl` absent (`none`) and `imageLoading`
absent (false), whatever the in-memory image state was at save time. -/
theorem partialize_strips_images (b : BookshelfItem) :
    (partializeBook b).id = b.id ∧
    (partializeBook b).topic = b.topic ∧
    (partializeBook b).summary = b.summary ∧
    (∀ p ∈ (partializeBook b).storybook, p.imageUrl = none ∧ p.imageLoading = false) ∧
    (∀ i, (partializeBook b).storybook.get? i =
      (b.storybook.get? i).map fun p => ⟨p.id, p.title, p.content, none, false⟩) := by
  refine ⟨rfl, rfl, rfl, ?_, ?_⟩
  · intro p hp
    simp only [partializeBook, List.mem_map] at hp
    obtain ⟨q, -, hq⟩ := hp
    rw [← hq]
    exact ⟨rfl, rfl⟩
  · intro i
    show (b.storybook.map stripPage).get? i = _
    rw [List.get?_map]
    cases b.storybook.get? i
    · rfl
    · rfl

/-- Witness for the persistence-stripping claim on a concrete entry
whose pages hold live image state. -/
theorem partialize_strips_images_witness :
    (∀ p ∈ (partializeBook ⟨7, "top", "sum",
        [⟨1, "a", "b", some "data:image/png;base64,xyz", false⟩,
         ⟨2, "c", "d", none, true⟩]⟩).storybook,
      p.imageUrl = none ∧ p.imageLoading = false) ∧
    (partializeBook ⟨7, "top", "sum",
        [⟨1, "a", "b", some "data:image/png;base64,xyz", false⟩,
         ⟨2, "c", "d", none, true⟩]⟩).storybook =
      [⟨1, "a", "b", none, false⟩, ⟨2, "c", "d", none, false⟩] :=
  ⟨(partialize_strips_images ⟨7, "top", "sum",
      [⟨1, "a", "b", some "data:image/png;base64,xyz", false⟩,
       ⟨2, "c", "d", none, true⟩]⟩).2.2.2.1,
   by decide⟩

/-- Claim C9: a stale image resolution whose page id matches no page of
the current session storybook is a silent no-op — the storybook and
every other session field are unchanged (the update is a total
function, so nothing is thrown) — and likewise `updateBookImages` with
an id matching no library entry leaves the library unchanged. -/
theorem stale_update_silent_noop (st : SessionState) (pageId : Nat) (url : String)
    (h : ∀ p ∈ st.currentStorybook, p.id ≠ pageId)
    (bookshelf : List BookshelfItem) (bid : Nat) (sb : List StoryPage)
    (h2 : ∀ bk ∈ bookshelf, bk.id ≠ bid) :
    updatePageImageS pageId url st = st ∧
    updateBookImages bid sb bookshelf = bookshelf := by
  constructor
  · have hm : updatePageImage pageId url st.currentStorybook = st.currentStorybook := by
      unfold updatePageImage
      have := List.map_congr_left (l := st.currentStorybook)
        (f := fun page : StoryPage =>
          if page.id = pageId then { page with imageUrl := some url, imageLoading := false }
          else page)
        (g := fun page => page) (fun p hp => if_neg (h p hp))
      rw [this, List.map_id']
    unfold updatePageImageS
    rw [hm]
  · unfold updateBookImages
    have := List.map_congr_left (l := bookshelf)
      (f := fun book : BookshelfItem =>
        if book.id = bid then { book with storybook := sb } else book)
      (g := fun book => book) (fun bk hbk => if_neg (h2 bk hbk))
    rw [this, List.map_id']

/-- Witness for the stale-update claim: a concrete session whose single
page has id 1 ignores a resolution for id 99, and a concrete library
ignores `updateBookImages` for an absent id. -/
theorem stale_update_silent_noop_witness :
    updatePageImageS 99 "late-url"
        ⟨[⟨1, "t", "c", none, true⟩], "top", "sum", 5, "Meme", ⟨"", none, false⟩⟩ =
      ⟨[⟨1, "t", "c", none, true⟩], "top", "sum", 5, "Meme", ⟨"", none, false⟩⟩ ∧
    updateBookImages 42 [] [⟨7, "top", "sum", []⟩] = [⟨7, "top", "sum", []⟩] :=
  stale_update_silent_noop
    ⟨[⟨1, "t", "c", none, true⟩], "top", "sum", 5, "Meme", ⟨"", none, false⟩⟩
    99 "late-url" (by decide) [⟨7, "top", "sum", []⟩] 42 [] (by decide)

/-- After a burst of `k` requests (1 ≤ k ≤ max) all arriving at time
`now` on a fresh identifier, the stored record holds count `k` and the
window end `now + window`. -/
theorem applyRequests_burst (max window now : Nat) :
    ∀ k, 1 ≤ k → k ≤ max →
      applyRequests max window now k none = some ⟨k, now + window⟩ := by
  intro k
  induction k with
  | zero => intro h1 _; exact absurd h1 (by omega)
  | succ k ih =>
    intro _ hk
    cases Nat.eq_zero_or_pos k with
    | inl h0 =>
      subst h0
      rfl
    | inr hpos =>
      have hmax : ¬ (k ≥ max) := by omega
      have hnow : ¬ (now + window < now) := by omega
      show some (getRateLimitStatus max window now
        (applyRequests max window now k none)).2 = _
      rw [ih hpos (by omega)]
      simp [getRateLimitStatus, hnow, hmax]

/-- Claim C1: the fixed-window rate limiter (both instances: text with
ceiling `RATE_LIMIT_MAX = 10`, image with ceiling
`IMAGE_RATE_LIMIT_MAX = 35`, window 60 s): the first request on a fresh
identifier creates the record `{count 1, resetTime now + window}` and
is allowed; each subsequent request within the window increments the
count and is allowed while the count is below the ceiling; the
`(max+1)`-th request within the window is rejected; and once the
current time is past `resetTime` the next request is accepted with the
count restarted at 1. -/
theorem rate_limiter_fixed_window (max window now : Nat) (hmax : 1 ≤ max) :
    (RATE_LIMIT_MAX = 10 ∧ IMAGE_RATE_LIMIT_MAX = 35 ∧
      RATE_LIMIT_WINDOW = 60 * 1000 ∧ IMAGE_RATE_LIMIT_WINDOW = 60 * 1000) ∧
    getRateLimitStatus max window now none =
      (⟨true, 1, max - 1, now + window⟩, ⟨1, now + window⟩) ∧
    (∀ k, 1 ≤ k → k < max →
      (getRateLimitStatus max window now (applyRequests max window now k none)).1 =
        ⟨true, k + 1, max - (k + 1), now + window⟩) ∧
    (getRateLimitStatus max window now
      (applyRequests max window now max none)).1.success = false ∧
    (∀ t, now + window < t →
      (getRateLimitStatus max window t (applyRequests max window now max none)) =
        (⟨true, 1, max - 1, t + window⟩, ⟨1, t + window⟩)) := by
  refine ⟨⟨rfl, rfl, rfl, rfl⟩, rfl, ?_, ?_, ?_⟩
  · intro k h1 hk
    rw [applyRequests_burst max window now k h1 (by omega)]
    have hnow : ¬ (now + window < now) := by omega
    have hm : ¬ (k ≥ max) := by omega
    simp [getRateLimitStatus, hnow, hm]
  · rw [applyRequests_burst max window now max hmax (le_refl max)]
    have hnow : ¬ (now + window < now) := by omega
    simp [getRateLimitStatus, hnow]
  · intro t ht
    rw [applyRequests_burst max window now max hmax (le_refl max)]
    simp [getRateLimitStatus, ht]

/-- Witness for the fixed-window claim at the text limiter's concrete
configuration: with ceiling 10 and a burst at time 0, the 11th request
is rejected and a request at time 60001 is accepted with count 1. -/
theorem rate_limiter_fixed_window_witness :
    1 ≤ RATE_LIMIT_MAX ∧
    (getRateLimitStatus RATE_LIMIT_MAX RATE_LIMIT_WINDOW 0
      (applyRequests RATE_LIMIT_MAX RATE_LIMIT_WINDOW 0 RATE_LIMIT_MAX none)).1.success =
      false ∧
    (getRateLimitStatus RATE_LIMIT_MAX RATE_LIMIT_WINDOW 60001
      (applyRequests RATE_LIMIT_MAX RATE_LIMIT_WINDOW 0 RATE_LIMIT_MAX none)) =
      (⟨true, 1, RATE_LIMIT_MAX - 1, 60001 + RATE_LIMIT_WINDOW⟩,
       ⟨1, 60001 + RATE_LIMIT_WINDOW⟩) :=
  ⟨by decide,
   (rate_limiter_fixed_window RATE_LIMIT_MAX RATE_LIMIT_WINDOW 0 (by decide)).2.2.2.1,
   (rate_limiter_fixed_window RATE_LIMIT_MAX RATE_LIMIT_WINDOW 0 (by decide)).2.2.2.2
     60001 (by decide)⟩

/-- Claim C10: a rejected check (count at the ceiling, window not
expired) stores the record back unchanged — same count, same
`resetTime` — so any number of rejected requests neither extends the
window nor consumes allowance, and the first request after `resetTime`
passes is accepted with the count restarted at 1 regardless of how many
rejections occurred. -/
theorem rejected_requests_consume_no_budget (max window : Nat) :
    (∀ t c r, max ≤ c → t ≤ r →
      getRateLimitStatus max window t (some ⟨c, r⟩) = (⟨false, c, 0, r⟩, ⟨c, r⟩)) ∧
    (∀ times c r, max ≤ c → (∀ t ∈ times, t ≤ r) →
      applyRequestsAt max window times (some ⟨c, r⟩) = some ⟨c, r⟩) ∧
    (∀ t c r, max ≤ c → r < t →
      getRateLimitStatus max window t (some ⟨c, r⟩) =
        (⟨true, 1, max - 1, t + window⟩, ⟨1, t + window⟩)) := by
  have hrej : ∀ t c r, max ≤ c → t ≤ r →
      getRateLimitStatus max window t (some ⟨c, r⟩) = (⟨false, c, 0, r⟩, ⟨c, r⟩) := by
    intro t c r hc hw
    have h1 : ¬ (r < t) := by omega
    simp [getRateLimitStatus, h1, hc]
  refine ⟨hrej, ?_, ?_⟩
  · intro times
    induction times with
    | nil => intro c r _ _; rfl
    | cons t rest ih =>
      intro c r hc hall
      show applyRequestsAt max window rest
        (some (getRateLimitStatus max window t (some ⟨c, r⟩)).2) = _
      rw [hrej t c r hc (hall t (List.mem_cons_self t rest))]
      exact ih c r hc fun t' ht' => hall t' (List.mem_cons_of_mem t ht')
  · intro t c r _ hw
    simp [getRateLimitStatus, hw]

/-- Witness for the rejection-no-op claim at the image limiter's
configuration: three rejected requests inside the window leave the
record at `{count 35, resetTime 60000}`, and a request at 60001 resets
the count to 1. -/
theorem rejected_requests_consume_no_budget_witness :
    (35 ≤ 35 ∧ (20 : Nat) ≤ 60000) ∧
    applyRequestsAt IMAGE_RATE_LIMIT_MAX IMAGE_RATE_LIMIT_WINDOW [20, 30, 40]
      (some ⟨35, 60000⟩) = some ⟨35, 60000⟩ ∧
    getRateLimitStatus IMAGE_RATE_LIMIT_MAX IMAGE_RATE_LIMIT_WINDOW 60001
      (some ⟨35, 60000⟩) =
      (⟨true, 1, IMAGE_RATE_LIMIT_MAX - 1, 60001 + IMAGE_RATE_LIMIT_WINDOW⟩,
       ⟨1, 60001 + IMAGE_RATE_LIMIT_WINDOW⟩) :=
  ⟨⟨by decide, by decide⟩,
   (rejected_requests_consume_no_budget IMAGE_RATE_LIMIT_MAX IMAGE_RATE_LIMIT_WINDOW).2.1
     [20, 30, 40] 35 60000 (by decide) (by decide),
   (rejected_requests_consume_no_budget IMAGE_RATE_LIMIT_MAX IMAGE_RATE_LIMIT_WINDOW).2.2
     60001 35 60000 (by decide) (by decide)⟩

/-- Claim C4: every image resolution (success, provider degrade to a
placeholder url, or failure — all of which call `updatePageImage` with
some url) leaves the matched page with a non-null `imageUrl` and
`imageLoading = false`; and along every reachable sequence of session
storybook updates, every page satisfies exactly one of
`imageLoading = true` XOR a non-null `imageUrl`. -/
theorem page_state_invariant :
    (∀ (s : List StoryPage) (pageId : Nat) (url : String),
      ∀ p ∈ updatePageImage pageId url s, p.id = pageId →
        p.imageUrl = some url ∧ p.imageLoading = false) ∧
    (∀ s, ReachableStorybook s → ∀ p ∈ s, pageOk p) := by
  have hres : ∀ (s : List StoryPage) (pageId : Nat) (url : String),
      ∀ p ∈ updatePageImage pageId url s, p.id = pageId →
        p.imageUrl = some url ∧ p.imageLoading = false := by
    intro s pageId url p hp hid
    simp only [updatePageImage, List.mem_map] at hp
    obtain ⟨q, -, hq⟩ := hp
    by_cases h : q.id = pageId
    · rw [← hq, if_pos h]
      exact ⟨rfl, rfl⟩
    · rw [← hq, if_neg h] at hid ⊢
      exact absurd hid h
  refine ⟨hres, ?_⟩
  intro s hreach
  induction hreach with
  | refl => intro p hp; exact absurd hp (List.not_mem_nil p)
  | tail _ hstep ih =>
    rename_i s₁ s₂ _
    intro p hp
    cases hstep with
    | install pages =>
      simp only [List.mem_map] at hp
      obtain ⟨pg, -, hpg⟩ := hp
      rw [← hpg]
      exact Or.inl ⟨rfl, rfl⟩
    | regen =>
      simp only [List.mem_map] at hp
      obtain ⟨q, hq, hfq⟩ := hp
      by_cases h : needsImage q
      · rw [← hfq, if_pos h]
        exact Or.inl ⟨rfl, rfl⟩
      · rw [← hfq, if_neg h]
        exact ih q hq
    | resolve pageId url =>
      simp only [updatePageImage, List.mem_map] at hp
      obtain ⟨q, hq, hfq⟩ := hp
      by_cases h : q.id = pageId
      · rw [← hfq, if_pos h]
        exact Or.inr ⟨rfl, by simp⟩
      · rw [← hfq, if_neg h]
        exact ih q hq
    | clear => exact absurd hp (List.not_mem_nil p)

/-- Witness for the page-state invariant: a freshly installed one-page
storybook whose image request then resolves is reachable, and every
page of both intermediate states satisfies the XOR invariant. -/
theorem page_state_invariant_witness :
    updatePageImage 1 "img" [(⟨1, "t", "c", none, true⟩ : StoryPage)] =
      [⟨1, "t", "c", some "img", false⟩] ∧
    (∀ p ∈ [(⟨1, "t", "c", none, true⟩ : StoryPage)], pageOk p) ∧
    (∀ p ∈ [(⟨1, "t", "c", some "img", false⟩ : StoryPage)], pageOk p) := by
  have h0 : ReachableStorybook [(⟨1, "t", "c", none, true⟩ : StoryPage)] :=
    Relation.ReflTransGen.single (SessionStep.install [] [(1, "t", "c")])
  have h1 : ReachableStorybook
      (updatePageImage 1 "img" [(⟨1, "t", "c", none, true⟩ : StoryPage)]) :=
    Relation.ReflTransGen.tail h0 (SessionStep.resolve _ 1 "img")
  refine ⟨rfl, page_state_invariant.2 _ h0, ?_⟩
  have := page_state_invariant.2 _ h1
  rwa [(rfl : updatePageImage 1 "img" [(⟨1, "t", "c", none, true⟩ : StoryPage)] =
    [⟨1, "t", "c", some "img", false⟩])] at this


/-- A fan-out acts pagewise: resolving every arrival over the list
equals mapping the per-page fold over the pages.  (Each arrival only
rewrites the page whose id matches and ids are never changed.) -/
theorem resolveAll_eq_map (outcomes : List (Nat × String)) :
    ∀ s : List StoryPage, resolveAll outcomes s = s.map (applyOutcomes outcomes) := by
  induction outcomes with
  | nil =>
    intro s
    show s = s.map (applyOutcomes [])
    rw [show applyOutcomes [] = fun p => p from rfl, List.map_id']
  | cons o rest ih =>
    intro s
    show resolveAll rest (updatePageImage o.1 o.2 s) = _
    rw [ih (updatePageImage o.1 o.2 s)]
    unfold updatePageImage
    rw [List.map_map]
    rfl

/-- The per-page fold is determined by the last resolution that targets
the page's id: if some arrival matched, the page holds that url and is
not loading; if none matched, the page is untouched. -/
theorem applyOutcomes_lastLookup (outcomes : List (Nat × String)) :
    ∀ p : StoryPage,
      applyOutcomes outcomes p =
        match lastLookup outcomes p.id with
        | some url => { p with imageUrl := some url, imageLoading := false }
        | none => p := by
  induction outcomes with
  | nil => intro p; rfl
  | cons o rest ih =>
    intro p
    show applyOutcomes rest
      (if p.id = o.1 then { p with imageUrl := some o.2, imageLoading := false } else p) = _
    by_cases h : p.id = o.1
    · rw [if_pos h]
      rw [ih { p with imageUrl := some o.2, imageLoading := false }]
      show (match lastLookup rest p.id with
        | some url =>
          { p with imageUrl := some url, imageLoading := false }
        | none => { p with imageUrl := some o.2, imageLoading := false }) = _
      show _ = (match
          (match lastLookup rest p.id with
           | some u => some u
           | none => if p.id = o.1 then some o.2 else none) with
        | some url => { p with imageUrl := some url, imageLoading := false }
        | none => p)
      cases lastLookup rest p.id
      · rw [if_pos h]
      · rfl
    · rw [if_neg h]
      rw [ih p]
      show _ = (match
          (match lastLookup rest p.id with
           | some u => some u
           | none => if p.id = o.1 then some o.2 else none) with
        | some url => { p with imageUrl := some url, imageLoading := false }
        | none => p)
      cases lastLookup rest p.id
      · rw [if_neg h]
      · rfl

/-- Claim C5: fan-out failure containment.  A single resolution (for one
page's failure placeholder or success url) rewrites only the matching
page and leaves every other page's fields untouched; a whole fan-out
gives every page exactly the url of the last resolution targeting its
own id (failure placeholder for the failed page, generated urls for the
others) and touches nothing else; and when every page's request has
resolved, no page is left with `imageLoading = true`. -/
theorem fanout_failure_containment :
    (∀ (s : List StoryPage) (pid : Nat) (url : String) (i : Nat),
      (updatePageImage pid url s).get? i =
        (s.get? i).map fun p =>
          if p.id = pid then { p with imageUrl := some url, imageLoading := false }
          else p) ∧
    (∀ (outcomes : List (Nat × String)) (s : List StoryPage),
      resolveAll outcomes s = s.map fun p =>
        match lastLookup outcomes p.id with
        | some url => { p with imageUrl := some url, imageLoading := false }
        | none => p) ∧
    (∀ (outcomes : List (Nat × String)) (s : List StoryPage),
      (∀ p ∈ s, (lastLookup outcomes p.id).isSome = true) →
      ∀ p' ∈ resolveAll outcomes s, p'.imageLoading = false) := by
  refine ⟨?_, ?_, ?_⟩
  · intro s pid url i
    show (s.map _).get? i = _
    rw [List.get?_map]
  · intro outcomes s
    rw [resolveAll_eq_map]
    exact List.map_congr_left fun p _ => applyOutcomes_lastLookup outcomes p
  · intro outcomes s hcov p' hp'
    rw [resolveAll_eq_map] at hp'
    simp only [List.mem_map] at hp'
    obtain ⟨p, hp, hfp⟩ := hp'
    rw [applyOutcomes_lastLookup] at hfp
    have := hcov p hp
    cases hll : lastLookup outcomes p.id with
    | none => rw [hll] at this; exact absurd this (by simp)
    | some url =>
      rw [hll] at hfp
      rw [← hfp]


/-- Witness for fan-out containment: in the 5-page scenario where page
2 fails while 1, 3, 4, 5 succeed, page 2 alone carries the failure
placeholder, the others carry their own urls, and no page is left
loading. -/
theorem fanout_failure_containment_witness :
    resolveAll fiveOutcomes fivePages =
      [⟨1, "p1", "c1", some "u1", false⟩,
       ⟨2, "p2", "c2", some failurePlaceholder, false⟩,
       ⟨3, "p3", "c3", some "u3", false⟩,
       ⟨4, "p4", "c4", some "u4", false⟩,
       ⟨5, "p5", "c5", some "u5", false⟩] ∧
    (∀ p' ∈ resolveAll fiveOutcomes fivePages, p'.imageLoading = false) ∧
    (updatePageImage 2 failurePlaceholder fivePages).get? 0 =
      ((fivePages.get? 0).map fun p =>
        if p.id = 2 then { p with imageUrl := some failurePlaceholder, imageLoading := false }
        else p) :=
  ⟨by decide,
   fanout_failure_containment.2.2 fiveOutcomes fivePages (by decide),
   fanout_failure_containment.1 fivePages 2 failurePlaceholder 0⟩

/-- Claim C3: the storybook branch of the `/generate-content` handler
fails closed: if the fence-stripped text does not parse as JSON, or
parses to a value without a `pages` array, the outcome is the 500
malformed-content error carrying the failure details; and a success
outcome only ever carries the cleaned text itself, which parses to a
value with a `pages` array — never a partially-constructed page list. -/
theorem storybook_malformed_fails_closed (generatedContent : String) :
    (jsonParse (cleanStorybook generatedContent) = none →
      storybookValidate generatedContent =
        StorybookOutcome.malformed "JSON parse error") ∧
    (∀ v, jsonParse (cleanStorybook generatedContent) = some v →
      pagesIsArray v = false →
      storybookValidate generatedContent =
        StorybookOutcome.malformed "Invalid structure - missing pages array") ∧
    (∀ c, storybookValidate generatedContent = StorybookOutcome.success c →
      c = cleanStorybook generatedContent ∧
      ∃ v, jsonParse c = some v ∧ pagesIsArray v = true) := by
  have hval : storybookValidate generatedContent =
      match jsonParse (cleanStorybook generatedContent) with
      | none => StorybookOutcome.malformed "JSON parse error"
      | some parsed =>
        if pagesIsArray parsed then
          StorybookOutcome.success (cleanStorybook generatedContent)
        else StorybookOutcome.malformed "Invalid structure - missing pages array" := rfl
  refine ⟨?_, ?_, ?_⟩
  · intro hnone
    rw [hval, hnone]
  · intro v hv hpages
    rw [hval, hv]
    simp [hpages]
  · intro c hc
    rw [hval] at hc
    cases hv : jsonParse (cleanStorybook generatedContent) with
    | none => rw [hv] at hc; exact absurd hc (by simp)
    | some v =>
      rw [hv] at hc
      have hc' : (if pagesIsArray v then
          StorybookOutcome.success (cleanStorybook generatedContent)
        else StorybookOutcome.malformed "Invalid structure - missing pages array") =
          StorybookOutcome.success c := hc
      by_cases hp : pagesIsArray v = true
      · rw [if_pos hp] at hc'
        cases hc'
        exact ⟨rfl, v, hv, hp⟩
      · rw [if_neg hp] at hc'
        exact absurd hc' (by simp)

/-- Witness for the fail-closed claim: a non-JSON provider text and a
valid JSON object missing the `pages` array both produce the 500
error, and a fenced valid storybook succeeds with its cleaned content. -/
theorem storybook_malformed_fails_closed_witness :
    jsonParse (cleanStorybook "here is your story!") = none ∧
    storybookValidate "here is your story!" =
      StorybookOutcome.malformed "JSON parse error" ∧
    storybookValidate "\x7b\"story\": []\x7d" =
      StorybookOutcome.malformed "Invalid structure - missing pages array" :=
  ⟨rfl,
   (storybook_malformed_fails_closed "here is your story!").1 rfl,
   (storybook_malformed_fails_closed "\x7b\"story\": []\x7d").2.1
     (Json.obj [("story", Json.arr [])]) rfl rfl⟩


/-- Claim C6 counterexample: `fencedObjectText` is a JSON object text
(it parses to an object), yet sanitizing it bare extracts the inner
fenced span `\x7b1\x7d` (which is not valid JSON, so the parse fails),
while sanitizing the ```json-wrapped text recovers the whole object —
the two parsed values differ, so fence-stripping is not transparent for
every JSON object text. -/
theorem fence_strip_not_transparent :
    jsonParse fencedObjectText =
      some (Json.obj [("a", Json.str "```json \x7b1\x7d ```")]) ∧
    cleanStorybook fencedObjectText = "\x7b1\x7d" ∧
    jsonParse (cleanStorybook fencedObjectText) = none ∧
    jsonParse (cleanStorybook (wrapFence fencedObjectText)) =
      some (Json.obj [("a", Json.str "```json \x7b1\x7d ```")]) ∧
    jsonParse (cleanStorybook (wrapFence fencedObjectText)) ≠
      jsonParse (cleanStorybook fencedObjectText) := by
  have e1 : jsonParse (cleanStorybook (wrapFence fencedObjectText)) =
      some (Json.obj [("a", Json.str "```json \x7b1\x7d ```")]) := rfl
  have e2 : jsonParse (cleanStorybook fencedObjectText) = none := rfl
  refine ⟨rfl, rfl, e2, e1, ?_⟩
  rw [e1, e2]
  simp

/-- Trimming is the identity on a list whose first and last characters
are not whitespace. -/
theorem trimChars_id (l : List Char) (a b : Char)
    (ha : l.head? = some a) (hsa : jsSpace a = false)
    (hb : l.getLast? = some b) (hsb : jsSpace b = false) :
    trimChars l = l := by
  cases l with
  | nil => exact absurd ha (by simp)
  | cons c t =>
    have hac : a = c := by simpa using ha.symm
    subst hac
    have h1 : (a :: t).dropWhile jsSpace = a :: t := by
      rw [List.dropWhile_cons, hsa]
      simp
    cases hrev : (a :: t).reverse with
    | nil => exact absurd (congrArg List.length hrev) (by simp)
    | cons c2 t2 =>
      have hbc : c2 = b := by
        have := List.head?_reverse (a :: t)
        rw [hrev, hb] at this
        simpa using this
      subst hbc
      unfold trimChars
      rw [h1, hrev, List.dropWhile_cons, hsb]
      simp only [Bool.false_eq_true, if_false]
      rw [← hrev, List.reverse_reverse]

/-- If the text contains no three consecutive backticks, the fence
search finds no match. -/
theorem findFence_eq_none (cs : List Char) (h : hasTriple cs = false) :
    findFence cs = none := by
  induction cs with
  | nil => rfl
  | cons c rest ih =>
    have hrest : hasTriple rest = false := by
      cases rest with
      | nil => rfl
      | cons d rest2 =>
        cases rest2 with
        | nil => rfl
        | cons e rest3 =>
          unfold hasTriple at h
          exact (Bool.or_eq_false_iff.mp h).2
    have hm : matchAt (c :: rest) = none := by
      cases rest with
      | nil => rfl
      | cons d rest2 =>
        cases rest2 with
        | nil => rfl
        | cons e rest3 =>
          unfold hasTriple at h
          have hg := (Bool.or_eq_false_iff.mp h).1
          rw [show matchAt (c :: d :: e :: rest3) =
            (if (decide (c = bq) && decide (d = bq) && decide (e = bq)) = true then
              (match (if tagJson rest3 = true then matchAfterTag (rest3.drop 4) else none) with
                | some cap => some cap
                | none => matchAfterTag rest3)
            else none) from rfl, hg]
          simp
    rw [show findFence (c :: rest) =
      (match matchAt (c :: rest) with
        | some cap => some cap
        | none => findFence rest) from rfl, hm]
    exact ih hrest

/-- The greedy capture end in `body ++ "\n" ++ three backticks` is the
last character of `body` whenever `body` ends with a closing brace:
the rightmost closing brace followed by whitespace and a closing fence
is `body`'s own last character. -/
theorem rightmostClose_append_close (t : List Char) (hlast : t.getLast? = some rb) :
    rightmostClose (t ++ ['\n', bq, bq, bq]) = some (t.length - 1) := by
  induction t with
  | nil => exact absurd hlast (by simp)
  | cons c t ih =>
    cases t with
    | nil =>
      have hc : c = rb := by simpa using hlast
      subst hc
      decide
    | cons d t2 =>
      have hlast' : (d :: t2).getLast? = some rb := by
        rwa [List.getLast?_cons_cons] at hlast
      have hrec := ih hlast'
      show (match rightmostClose ((d :: t2) ++ ['\n', bq, bq, bq]) with
        | some j => some (j + 1)
        | none =>
          if c = rb && closeOk ((d :: t2) ++ ['\n', bq, bq, bq]) then some 0 else none) = _
      rw [hrec]
      show some ((d :: t2).length - 1 + 1) = some ((c :: d :: t2).length - 1)
      exact congrArg some (by simp only [List.length_cons]; omega)

/-- The fence search on a wrapped object text: at position 0 the fence
matches with the `json` tag, the greedy capture runs to the text's own
final closing brace, and the capture is exactly the bare text. -/
theorem findFence_wrapped (s : String) (t : List Char)
    (hdata : s.data = lb :: t) (hlast : t.getLast? = some rb) :
    findFence (bq :: bq :: bq :: 'j' :: 's' :: 'o' :: 'n' :: '\n' ::
      (s.data ++ ['\n', bq, bq, bq])) = some s.data := by
  have hne : t ≠ [] := by
    intro h0
    rw [h0] at hlast
    simp at hlast
  have hlen : t.length - 1 + 1 = t.length :=
    Nat.succ_pred_eq_of_pos (List.length_pos.mpr hne)
  have hdrop : ('\n' :: (s.data ++ ['\n', bq, bq, bq])).dropWhile jsSpace
      = lb :: (t ++ ['\n', bq, bq, bq]) := by
    rw [List.dropWhile_cons]
    rw [show jsSpace '\n' = true from rfl]
    simp only [if_true]
    rw [hdata, List.cons_append, List.dropWhile_cons]
    rw [show jsSpace lb = false from rfl]
    simp
  have hmat : matchAfterTag ('\n' :: (s.data ++ ['\n', bq, bq, bq])) = some s.data := by
    show (match ('\n' :: (s.data ++ ['\n', bq, bq, bq])).dropWhile jsSpace with
      | c :: body =>
        if c = lb then
          match rightmostClose body with
          | some j => some (lb :: body.take (j + 1))
          | none => none
        else none
      | [] => none) = some s.data
    rw [hdrop]
    show (if (decide (lb = lb)) = true then
        (match rightmostClose (t ++ ['\n', bq, bq, bq]) with
          | some j => some (lb :: (t ++ ['\n', bq, bq, bq]).take (j + 1))
          | none => none)
      else none) = some s.data
    rw [if_pos (by decide), rightmostClose_append_close t hlast]
    show some (lb :: (t ++ ['\n', bq, bq, bq]).take (t.length - 1 + 1)) = some s.data
    rw [hlen, List.take_left, ← hdata]
  have hAt : matchAt (bq :: bq :: bq :: 'j' :: 's' :: 'o' :: 'n' :: '\n' ::
      (s.data ++ ['\n', bq, bq, bq])) = some s.data := by
    rw [show matchAt (bq :: bq :: bq :: 'j' :: 's' :: 'o' :: 'n' :: '\n' ::
        (s.data ++ ['\n', bq, bq, bq])) =
      (if (decide (bq = bq) && decide (bq = bq) && decide (bq = bq)) = true then
        (match (if tagJson ('j' :: 's' :: 'o' :: 'n' :: '\n' :: (s.data ++ ['\n', bq, bq, bq]))
              = true then
            matchAfterTag (('j' :: 's' :: 'o' :: 'n' :: '\n' ::
              (s.data ++ ['\n', bq, bq, bq])).drop 4)
          else none) with
          | some cap => some cap
          | none => matchAfterTag ('j' :: 's' :: 'o' :: 'n' :: '\n' ::
              (s.data ++ ['\n', bq, bq, bq])))
      else none) from rfl]
    rw [if_pos (by decide)]
    rw [show tagJson ('j' :: 's' :: 'o' :: 'n' :: '\n' :: (s.data ++ ['\n', bq, bq, bq]))
      = true from rfl]
    simp only [if_true]
    rw [show ('j' :: 's' :: 'o' :: 'n' :: '\n' :: (s.data ++ ['\n', bq, bq, bq])).drop 4
      = '\n' :: (s.data ++ ['\n', bq, bq, bq]) from rfl]
    rw [hmat]
  rw [show findFence (bq :: bq :: bq :: 'j' :: 's' :: 'o' :: 'n' :: '\n' ::
      (s.data ++ ['\n', bq, bq, bq])) =
    (match matchAt (bq :: bq :: bq :: 'j' :: 's' :: 'o' :: 'n' :: '\n' ::
        (s.data ++ ['\n', bq, bq, bq])) with
      | some cap => some cap
      | none => findFence (bq :: bq :: 'j' :: 's' :: 'o' :: 'n' :: '\n' ::
          (s.data ++ ['\n', bq, bq, bq]))) from rfl, hAt]

/-- Claim C6 as amended: fence-stripping is transparent for every JSON
object text that itself contains no triple-backtick fence: for a text
beginning with an opening brace and ending with a closing brace, with
no three consecutive backticks, sanitizing the ```json-wrapped text and
sanitizing the bare text both yield the text itself, hence the same
parsed value.  The no-fence condition is necessary: an object text with
a fenced span inside a string value breaks transparency. -/
theorem fence_strip_transparent (s : String)
    (hhead : s.data.head? = some lb)
    (hlast : s.data.getLast? = some rb)
    (hnofence : hasTriple s.data = false) :
    cleanStorybook s = s ∧
    cleanStorybook (wrapFence s) = s ∧
    jsonParse (cleanStorybook (wrapFence s)) = jsonParse (cleanStorybook s) := by
  obtain ⟨t, hd⟩ : ∃ t, s.data = lb :: t := by
    cases hd : s.data with
    | nil => rw [hd] at hhead; simp at hhead
    | cons c t =>
      rw [hd] at hhead
      have hc : c = lb := by simpa using hhead
      exact ⟨t, by rw [hc]⟩
  have htlast : t.getLast? = some rb := by
    cases t with
    | nil =>
      rw [hd] at hlast
      have : lb = rb := by simpa using hlast
      exact absurd this (by decide)
    | cons d t2 =>
      rw [hd, List.getLast?_cons_cons] at hlast
      exact hlast
  have htrim : jsTrim s = s := by
    show String.mk (trimChars s.data) = s
    rw [trimChars_id s.data lb rb (by rw [hd]; rfl) (by decide) hlast (by decide)]
  have hbare : cleanStorybook s = s := by
    have heq : cleanStorybook s =
        (match findFence (jsTrim s).data with
          | some cap => String.mk cap
          | none => jsTrim s) := rfl
    rw [heq, htrim, findFence_eq_none s.data hnofence]
  have hwdata : (wrapFence s).data = bq :: bq :: bq :: 'j' :: 's' :: 'o' :: 'n' :: '\n' ::
      (s.data ++ ['\n', bq, bq, bq]) := by
    show ("```json\n" ++ s ++ "\n```").data = _
    rw [String.data_append, String.data_append, List.append_assoc]
    rfl
  have hwlast : (wrapFence s).data.getLast? = some bq := by
    rw [hwdata]
    show (([bq, bq, bq, 'j', 's', 'o', 'n', '\n'] ++
      (s.data ++ ['\n', bq, bq, bq])).getLast?) = some bq
    rw [List.getLast?_append_of_ne_nil _ (by simp),
      List.getLast?_append_of_ne_nil _ (by simp)]
    rfl
  have hwtrim : jsTrim (wrapFence s) = wrapFence s := by
    show String.mk (trimChars (wrapFence s).data) = wrapFence s
    rw [trimChars_id (wrapFence s).data bq bq (by rw [hwdata]; rfl) (by decide)
      hwlast (by decide)]
  have hwrap : cleanStorybook (wrapFence s) = s := by
    have heq : cleanStorybook (wrapFence s) =
        (match findFence (jsTrim (wrapFence s)).data with
          | some cap => String.mk cap
          | none => jsTrim (wrapFence s)) := rfl
    rw [heq, hwtrim, hwdata, findFence_wrapped s t hd htlast]
  exact ⟨hbare, hwrap, by rw [hbare, hwrap]⟩

/-- Witness for the amended transparency claim on a concrete storybook
object text: sanitizing the fenced and bare forms agree. -/
theorem fence_strip_transparent_witness :
    cleanStorybook "\x7b\"pages\": []\x7d" = "\x7b\"pages\": []\x7d" ∧
    cleanStorybook (wrapFence "\x7b\"pages\": []\x7d") = "\x7b\"pages\": []\x7d" ∧
    jsonParse (cleanStorybook (wrapFence "\x7b\"pages\": []\x7d")) =
      jsonParse (cleanStorybook "\x7b\"pages\": []\x7d") :=
  fence_strip_transparent "\x7b\"pages\": []\x7d" (by decide) (by decide) (by decide)

end Sumarizz
